import Mathlib

/-!
Verification of the layer-graph assembly and validation engine of the
model-builder application.  The Python sources are shallowly embedded:
Python dicts become ordered association lists with replace-or-append
insertion (matching `d[k] = v` semantics), exceptions become an `Option Err`
component threaded through a result record, and the external ML framework
(layer instantiation, model construction, compile and fit) is modelled by
explicit parameters and small stand-in functions whose behaviour follows
the interface description in the specification.
-/

namespace MLTest

/-- Association-list model of a Python `dict[str, α]`: insertion order is
kept, keys are unique by construction of `dinsert`. -/
abbrev DictL (α : Type) := List (String × α)

/-- Python `d[k]` lookup (returning `none` where Python raises `KeyError`). -/
def dfind? {α : Type} : DictL α → String → Option α
  | [], _ => none
  | (k, v) :: rest, key => if k = key then some v else dfind? rest key

/-- Python `d[k] = v`: replace the value in place when the key exists,
otherwise append the new pair at the end. -/
def dinsert {α : Type} : DictL α → String → α → DictL α
  | [], k, v => [(k, v)]
  | (k0, v0) :: rest, k, v =>
      if k0 = k then (k, v) :: rest else (k0, v0) :: dinsert rest k v

/-- Build a dict from a list of pairs in order, later pairs overwriting
earlier ones (Python dict comprehension / `dict(...)`). -/
def dofList {α : Type} (l : List (String × α)) : DictL α :=
  l.foldl (fun d kv => dinsert d kv.1 kv.2) []

/-- Python `a | b` on dicts: entries of `a`, then entries of `b`, with the
entries of `b` overwriting on key clashes. -/
def dunion {α : Type} (a b : DictL α) : DictL α :=
  b.foldl (fun d kv => dinsert d kv.1 kv.2) a

theorem dfind?_dinsert {α : Type} (d : DictL α) (k key : String) (v : α) :
    dfind? (dinsert d k v) key = if k = key then some v else dfind? d key := by
  induction d with
  | nil => simp [dinsert, dfind?]
  | cons hd tl ih =>
      obtain ⟨k0, v0⟩ := hd
      by_cases h0 : k0 = k
      · subst h0
        by_cases hk : k0 = key <;> simp [dinsert, dfind?, hk]
      · by_cases hk : k0 = key
        · subst hk
          have hne : k ≠ k0 := fun h => h0 h.symm
          simp [dinsert, h0, dfind?, hne]
        · simp [dinsert, h0, dfind?, hk, ih]

theorem dfind?_foldl_dinsert {α : Type} (l : List (String × α)) (d0 : DictL α)
    (key : String) :
    dfind? (l.foldl (fun d kv => dinsert d kv.1 kv.2) d0) key =
      l.foldl (fun acc kv => if kv.1 = key then some kv.2 else acc)
        (dfind? d0 key) := by
  induction l generalizing d0 with
  | nil => rfl
  | cons hd tl ih =>
      simp only [List.foldl_cons]
      rw [ih, dfind?_dinsert]

theorem foldl_acc_of_not_mem {α : Type} (l : List (String × α)) (key : String)
    (acc : Option α) (h : key ∉ l.map Prod.fst) :
    l.foldl (fun acc kv => if kv.1 = key then some kv.2 else acc) acc = acc := by
  induction l generalizing acc with
  | nil => rfl
  | cons hd tl ih =>
      simp only [List.map_cons, List.mem_cons] at h
      push_neg at h
      rw [List.foldl_cons, if_neg (Ne.symm h.1)]
      exact ih acc h.2

theorem dfind?_dofList_of_not_mem {α : Type} (l : List (String × α))
    (key : String) (h : key ∉ l.map Prod.fst) :
    dfind? (dofList l) key = none := by
  unfold dofList
  rw [dfind?_foldl_dinsert]
  exact foldl_acc_of_not_mem l key _ h

theorem dfind?_dofList_of_nodup {α : Type} (l : List (String × α))
    (key : String) (v : α) (hnd : (l.map Prod.fst).Nodup)
    (hmem : (key, v) ∈ l) :
    dfind? (dofList l) key = some v := by
  unfold dofList
  rw [dfind?_foldl_dinsert]
  induction l with
  | nil => cases hmem
  | cons hd tl ih =>
      simp only [List.map_cons, List.nodup_cons] at hnd
      rcases List.mem_cons.mp hmem with heq | hmem'
      · subst heq
        simp only [List.foldl_cons, if_pos rfl]
        have : key ∉ tl.map Prod.fst := hnd.1
        exact foldl_acc_of_not_mem tl key _ this
      · have hkey : hd.1 ≠ key := by
          intro hk
          exact hnd.1 (hk ▸ (List.mem_map.mpr ⟨(key, v), hmem', rfl⟩))
        simp only [List.foldl_cons, if_neg hkey]
        exact ih hnd.2 hmem'

/-- Opaque layer handle (a TensorFlow layer or Keras tensor): carries the
layer name the framework would report, the declared tensor shape (a list of
dimensions, `none` standing for the Python `None` batch dimension) and an
identity tag. -/
structure Handle where
  hname : String
  shape : List (Option Nat)
  hid : Nat
  deriving DecidableEq, Repr, Inhabited

/-- The value fed to a layer factory: nothing for an entry layer, one
upstream handle, or an ordered list of upstream handles. -/
inductive Connection where
  | noConn : Connection
  | one : Handle → Connection
  | many : List Handle → Connection
  deriving DecidableEq, Repr

/-- The `connect_to : str | list[str] | None` argument of
`ModelManager.add_layer`. -/
inductive ConnectTo where
  | none : ConnectTo
  | single : String → ConnectTo
  | multi : List String → ConnectTo
  deriving DecidableEq, Repr

/-- The `outputs_names : str | list[str]` argument of
`ModelManager.set_model_outputs`. -/
inductive StrOrList where
  | str : String → StrOrList
  | list : List String → StrOrList
  deriving DecidableEq, Repr

/-- Error kinds, following the taxonomy of the specification.  In the
Python source these surface as `KeyError` (here `unknownLayer`), the
`LayerError` raised by `Concatenate.get_connection` (here
`insufficientConnections`), `ValidateModelError` (here the three
`validateShape` variants), `AttributeError` on a missing model instance
(here `noModel`), `IndexError` on a too-short shape tuple (here
`indexError`), `TypeError` on arithmetic with a `None` dimension (here
`typeError`), and the not-compiled failure of the external fit call. -/
inductive Err where
  | unknownLayer : String → Err
  | duplicateName : String → Err
  | notCompiled : Err
  | insufficientConnections : Err
  | validateShapeEmptyColl : Err
  | validateShapeEmptyItem : Err
  | validateShapeTooManyDims : Err
  | noModel : Err
  | indexError : Err
  | typeError : Err
  deriving DecidableEq, Repr

/-- Observer callback names.  Modelled from the spec: the
`src.Enums.ObserveTypes.Observe` enum is not among the provided sources;
the specification lists the callbacks as `modelChanged`, `layerAdded`,
`outputsSet`, `optimizerSelected`, `lossesSelected`, `modelCompiled`,
`modelTrained`. -/
inductive Observe where
  | modelChanged : Observe
  | layerAdded : Observe
  | outputsSet : Observe
  | optimizerSelected : Observe
  | lossesSelected : Observe
  | modelCompiled : Observe
  | modelTrained : Observe
  deriving DecidableEq, Repr

/-- A value of the `losses` dict: `unset` is the empty list placeholder
written by `refresh_model`, `bound` is an instantiated loss object written
by `add_loss` (identified by a tag). -/
inductive LossVal where
  | unset : LossVal
  | bound : Nat → LossVal
  deriving DecidableEq, Repr

/-- The TensorFlow model instance, abstracted to the metadata that
`ModelManager` reads back from it: its name, the input names and input
tensors, the output names and output tensors, and whether `compile` has
been called on it. -/
structure TFInstance where
  tfName : String
  input_names : List String
  inputs : List Handle
  output_names : List String
  outputs : List Handle
  tfCompiled : Bool
  deriving DecidableEq, Repr

/-- The `Model` data container.  Modelled from the spec: the
`src.DataClasses.Model` class is not among the provided sources; the
specification gives its fields (layers, input/output layers, input/output
shapes, compiled flag, optimizer, losses, metrics, callbacks, training
history) with an absent model instance and a false compiled flag before
the first create/upload/compile. -/
structure ModelState where
  instanceM : Option TFInstance
  mname : String
  input_layers : DictL Handle
  output_layers : DictL Handle
  layers : DictL Handle
  input_shapes : DictL (Option Nat)
  output_shapes : DictL (Option Nat)
  compiled : Bool
  optimizer : Option Nat
  losses : DictL LossVal
  metrics : DictL (List Nat)
  callbacks : List Nat
  training_history : DictL (List Int)
  deriving DecidableEq, Repr

/-- The fresh `Model()` container: no instance, empty maps, not compiled. -/
def initialState : ModelState :=
  { instanceM := none, mname := "", input_layers := [], output_layers := [],
    layers := [], input_shapes := [], output_shapes := [], compiled := false,
    optimizer := none, losses := [], metrics := [], callbacks := [],
    training_history := [] }

/-- Result of one manager operation: the raised error if any (`none` on
success), the state of the `Model` container after the call (mutations made
before an exception are kept, as in Python), and the list of observer
callback types the call passed to `notify_observers`. -/
structure MResult where
  err : Option Err
  state : ModelState
  events : List Observe
  deriving DecidableEq, Repr

/-- The external framework model constructor
`tf.keras.Model(inputs=input_dict, outputs=output_dict, name=...)`,
abstracted to its introspectable metadata: with dict arguments Keras keys
the model inputs and outputs by the dict keys, and a freshly constructed
model is not compiled. -/
def kerasModel (iL oL : DictL Handle) (nm : String) : TFInstance :=
  { tfName := nm, input_names := iL.map Prod.fst, inputs := iL.map Prod.snd,
    output_names := oL.map Prod.fst, outputs := oL.map Prod.snd,
    tfCompiled := false }

/-- The `layer.shape[1]` subscript of `ModelManager.refresh_model`:
`IndexError` when the shape tuple has fewer than two entries. -/
def shapeAt1 (h : Handle) : Except Err (Option Nat) :=
  match h.shape.get? 1 with
  | some d => Except.ok d
  | none => Except.error Err.indexError

/-- The dict comprehension
`{layer.name: layer.shape[1] for layer in instance.inputs}`:
pairs are produced left to right, the first `IndexError` aborts the whole
comprehension before anything is assigned. -/
def inputShapePairs : List Handle → Except Err (List (String × Option Nat))
  | [] => Except.ok []
  | h :: rest =>
      match shapeAt1 h with
      | Except.error e => Except.error e
      | Except.ok d =>
          match inputShapePairs rest with
          | Except.error e => Except.error e
          | Except.ok ps => Except.ok ((h.hname, d) :: ps)

/-- `ModelManager.refresh_model`, threading the field assignments in source
order so that an `IndexError` in the `input_shapes` comprehension leaves
the earlier assignments (name, input/output layers, layers) in place
exactly as in Python. -/
def refresh_model (st : ModelState) (inst : TFInstance) :
    Option Err × ModelState :=
  let st1 := { st with mname := inst.tfName }
  let iL := dofList (List.zip inst.input_names inst.inputs)
  let st2 := { st1 with input_layers := iL }
  let oL := dofList (List.zip inst.output_names inst.outputs)
  let st3 := { st2 with output_layers := oL }
  let st4 := { st3 with layers := dunion iL oL }
  match inputShapePairs inst.inputs with
  | Except.error e => (some e, st4)
  | Except.ok iS =>
      let st5 := { st4 with input_shapes := dofList iS }
      let st6 := { st5 with
        output_shapes :=
          dofList (inst.output_names.map (fun n => (n, some 1))) }
      let st7 := { st6 with
        losses :=
          dofList (oL.map (fun kv : String × Handle => (kv.1, LossVal.unset))) }
      let st8 := { st7 with
        metrics :=
          dofList (oL.map (fun kv : String × Handle => (kv.1, ([] : List Nat)))) }
      (none, st8)

/-- `ModelManager.create_model`: a fresh empty Keras model, then
`refresh_model`, then notification with `Observe.MODEL`. -/
def create_model (st : ModelState) (model_name : String) : MResult :=
  let inst := kerasModel [] [] model_name
  let st1 := { st with instanceM := some inst }
  match refresh_model st1 inst with
  | (some e, st2) => { err := some e, state := st2, events := [] }
  | (none, st2) =>
      { err := none, state := st2, events := [Observe.modelChanged] }

/-- `ModelManager.upload_model`: the deserialized instance stands in for
`tf.keras.models.load_model(model_path)` and is supplied as a parameter;
then `refresh_model` and notification with `Observe.MODEL`. -/
def upload_model (st : ModelState) (loaded : TFInstance) : MResult :=
  let st1 := { st with instanceM := some loaded }
  match refresh_model st1 loaded with
  | (some e, st2) => { err := some e, state := st2, events := [] }
  | (none, st2) =>
      { err := none, state := st2, events := [Observe.modelChanged] }

/-- The list comprehension `[layers[name] for name in names]`: lookups run
left to right and the first missing name raises `KeyError(name)`. -/
def lookupList (d : DictL Handle) : List String → Except Err (List Handle)
  | [] => Except.ok []
  | n :: rest =>
      match dfind? d n with
      | none => Except.error (Err.unknownLayer n)
      | some h =>
          match lookupList d rest with
          | Except.error e => Except.error e
          | Except.ok hs => Except.ok (h :: hs)

/-- The dict comprehension `{name: layers[name] for name in names}` before
it is turned into a dict: the pairs in order, the first missing name
raising `KeyError(name)`. -/
def lookupPairs (d : DictL Handle) :
    List String → Except Err (List (String × Handle))
  | [] => Except.ok []
  | n :: rest =>
      match dfind? d n with
      | none => Except.error (Err.unknownLayer n)
      | some h =>
          match lookupPairs d rest with
          | Except.error e => Except.error e
          | Except.ok ps => Except.ok ((n, h) :: ps)

/-- `ModelManager.add_layer`.  The layer factory call
`layer_instance(**kwargs)` (and its application to the resolved
connection) is the parameter `mk`; `name` is `kwargs["name"]`.  Mutation
order follows the source: for an entry layer `input_layers` is updated and
then `layers`; for a connected layer the `layers` lookups run before any
mutation, so a `KeyError` leaves the container untouched. -/
def add_layer (st : ModelState) (mk : Connection → Handle) (name : String) :
    ConnectTo → MResult
  | ConnectTo.none =>
      let h := mk Connection.noConn
      let st1 := { st with input_layers := dinsert st.input_layers name h }
      let st2 := { st1 with layers := dinsert st1.layers name h }
      { err := none, state := st2, events := [Observe.layerAdded] }
  | ConnectTo.single c =>
      match dfind? st.layers c with
      | none => { err := some (Err.unknownLayer c), state := st, events := [] }
      | some h0 =>
          let h := mk (Connection.one h0)
          { err := none, state := { st with layers := dinsert st.layers name h },
            events := [Observe.layerAdded] }
  | ConnectTo.multi cs =>
      match lookupList st.layers cs with
      | Except.error e => { err := some e, state := st, events := [] }
      | Except.ok hs =>
          let h := mk (Connection.many hs)
          { err := none, state := { st with layers := dinsert st.layers name h },
            events := [Observe.layerAdded] }

/-- The `for name in outputs_names` iteration of
`ModelManager.set_model_outputs`: iterating a Python `str` yields its
characters one by one, each a one-character string. -/
def namesOf : StrOrList → List String
  | StrOrList.str s => s.data.map (fun c => String.mk [c])
  | StrOrList.list l => l

/-- `ModelManager.set_model_outputs`: build the new `output_layers` dict
from `layers` (a `KeyError` here leaves the container untouched), replace
the instance by `tf.keras.Model(inputs=input_layers,
outputs=output_layers, name=name)`, refresh and notify with
`Observe.OUTPUTS_SET`. -/
def set_model_outputs (st : ModelState) (outputs_names : StrOrList) : MResult :=
  match lookupPairs st.layers (namesOf outputs_names) with
  | Except.error e => { err := some e, state := st, events := [] }
  | Except.ok pairs =>
      let oL := dofList pairs
      let st1 := { st with output_layers := oL }
      let inst := kerasModel st1.input_layers oL st1.mname
      let st2 := { st1 with instanceM := some inst }
      match refresh_model st2 inst with
      | (some e, st3) => { err := some e, state := st3, events := [] }
      | (none, st3) =>
          { err := none, state := st3, events := [Observe.outputsSet] }

/-- `ModelManager.select_optimizer`: `optimizer_(**kwargs)` is the
parameter `opt`; the selection overwrites any prior one. -/
def select_optimizer (st : ModelState) (opt : Nat) : MResult :=
  { err := none, state := { st with optimizer := some opt },
    events := [Observe.optimizerSelected] }

/-- `ModelManager.add_loss`: the assignment `losses[layer] = loss()`
inserts or overwrites and cannot raise, then the observers are notified
with `Observe.LOSSES_SELECTED`. -/
def add_loss (st : ModelState) (layer : String) (loss : Nat) : MResult :=
  { err := none,
    state := { st with losses := dinsert st.losses layer (LossVal.bound loss) },
    events := [Observe.lossesSelected] }

/-- `ModelManager.add_metric`: `metrics[layer].append(metric())` looks the
layer up (raising `KeyError` when absent) and appends; the method contains
no `notify_observers` call. -/
def add_metric (st : ModelState) (layer : String) (metric : Nat) : MResult :=
  match dfind? st.metrics layer with
  | none => { err := some (Err.unknownLayer layer), state := st, events := [] }
  | some ms =>
      { err := none,
        state := { st with metrics := dinsert st.metrics layer (ms ++ [metric]) },
        events := [] }

/-- `ModelManager.add_callback`: appends `callback(**kwargs)`; no
notification. -/
def add_callback (st : ModelState) (cb : Nat) : MResult :=
  { err := none, state := { st with callbacks := st.callbacks ++ [cb] },
    events := [] }

/-- `ModelManager.compile_model`.  `instance.compile(...)` on a missing
instance is an `AttributeError`; otherwise the external compile call is
modelled as succeeding and marking the instance compiled, after which the
flag is set and the observers notified with `Observe.MODEL_COMPILED`. -/
def compile_model (st : ModelState) : MResult :=
  match st.instanceM with
  | none => { err := some Err.noModel, state := st, events := [] }
  | some i =>
      let compiledInst : TFInstance := { i with tfCompiled := true }
      { err := none,
        state := { st with instanceM := some compiledInst, compiled := true },
        events := [Observe.modelCompiled] }

/-- The external `instance.fit(...)` call of `ModelManager.fit_model`.
Modelled from the spec: the external framework and the `Data` container
are not among the provided sources; per the specification, fitting fails
with `NotCompiledError` unless a compiled model exists, and otherwise
returns the per-epoch history (supplied here as the parameter `hist`,
standing for the result computed from the training data). -/
def tf_fit (instanceM : Option TFInstance) (hist : DictL (List Int)) :
    Except Err (DictL (List Int)) :=
  match instanceM with
  | none => Except.error Err.notCompiled
  | some i =>
      if i.tfCompiled then Except.ok hist else Except.error Err.notCompiled

/-- `ModelManager.fit_model`: delegate to the external fit; only on its
success is `training_history` overwritten and `Observe.MODEL_TRAINED`
notified. -/
def fit_model (st : ModelState) (hist : DictL (List Int)) : MResult :=
  match tf_fit st.instanceM hist with
  | Except.error e => { err := some e, state := st, events := [] }
  | Except.ok h =>
      { err := none, state := { st with training_history := h },
        events := [Observe.modelTrained] }

/-- `ModelManager.check_layer_capacity`.  Lookup order follows the source:
the shape dict chosen by `layer_type`, then `data.columns_per_layer`
(`KeyError` on either miss); a `None` dimension makes the comparison a
`TypeError`.  The `columns_per_layer` dict belongs to the `Data`
collaborator and is passed in. -/
def check_layer_capacity (st : ModelState) (columns_per_layer : DictL Nat)
    (layer_type : String) (layer : String) (num_columns : Nat) :
    Except Err Bool :=
  match
    (if layer_type = "input" then dfind? st.input_shapes layer
     else dfind? st.output_shapes layer) with
  | none => Except.error (Err.unknownLayer layer)
  | some shape =>
      match dfind? columns_per_layer layer with
      | none => Except.error (Err.unknownLayer layer)
      | some current =>
          match shape with
          | none => Except.error Err.typeError
          | some s =>
              Except.ok (if num_columns + current > s then false else true)

/-- An observer, as probed by `getattr(observer, callback_type, None)`
plus the `callable` check: for each callback type, either a callable
(identified by a tag) or nothing. -/
def Observer : Type := Observe → Option Nat

/-- `ModelManager.notify_observers`: walk the observers in registration
order, invoke the callback when the observer exposes a callable of that
name, silently skip it otherwise.  The result is the ordered list of
invoked callbacks. -/
def notify_observers : List Observer → Observe → List Nat
  | [], _ => []
  | o :: rest, ct =>
      match o ct with
      | some cb => cb :: notify_observers rest ct
      | none => notify_observers rest ct

/-- The callbacks actually invoked during one manager call: its event list
dispatched through `notify_observers` over the registered observers. -/
def invokedCallbacks (events : List Observe) (observers : List Observer) :
    List Nat :=
  match events with
  | [] => []
  | ct :: rest => notify_observers observers ct ++ invokedCallbacks rest observers

/-- `ModelManager.model_exists`: `True if self._model.instance else False`.
An empty `tf.keras.Model` is still truthy, so this is presence of the
instance. -/
def model_exists (st : ModelState) : Bool :=
  st.instanceM.isSome

/-- `Concatenate.get_connection` from the layer widgets: at least two
selected layers are required (`LayerError`, the insufficient-connections
failure of the specification), then the selected names are resolved in
order. -/
def concatenate_get_connection (layers : DictL Handle)
    (selected : List String) : Except Err (List Handle) :=
  if selected.length < 2 then Except.error Err.insufficientConnections
  else lookupList layers selected

/-- The `shapes : dict | list | tuple` argument of `validate_shapes`.  A
shape is a tuple of dimensions (`none` is the Python `None`). -/
inductive ShapesPy where
  | dictS : List (String × List (Option Nat)) → ShapesPy
  | listS : List (List (Option Nat)) → ShapesPy
  | tupleS : List (Option Nat) → ShapesPy
  deriving DecidableEq, Repr

/-- The first `if not shapes` test of `validate_shapes`, applied to the
collection as supplied. -/
def shapesFalsy : ShapesPy → Bool
  | ShapesPy.dictS d => d.isEmpty
  | ShapesPy.listS l => l.isEmpty
  | ShapesPy.tupleS t => t.isEmpty

/-- The conversion step of `validate_shapes`: dict values, the list
itself, or the bare tuple wrapped in a singleton list. -/
def toShapeList : ShapesPy → List (List (Option Nat))
  | ShapesPy.dictS d => d.map Prod.snd
  | ShapesPy.listS l => l
  | ShapesPy.tupleS t => [t]

/-- The `for shape in shapes` loop of `validate_shapes`, transcribed as
written: the first guard in the body tests `not shapes` — the WHOLE
converted collection `whole`, not the current `shape` — and the second
guard tests `len(shape) > 2`. -/
def validateLoop (whole : List (List (Option Nat))) :
    List (List (Option Nat)) → Except Err Unit
  | [] => Except.ok ()
  | shape :: rest =>
      if whole.isEmpty then Except.error Err.validateShapeEmptyItem
      else if shape.length > 2 then Except.error Err.validateShapeTooManyDims
      else validateLoop whole rest

/-- `validate_shapes` from `mlui.tools.model`. -/
def validate_shapes (shapes : ShapesPy) : Except Err Unit :=
  if shapesFalsy shapes then Except.error Err.validateShapeEmptyColl
  else validateLoop (toShapeList shapes) (toShapeList shapes)

/-- States of the `Model` container reachable by running the manager
operations from a fresh container.  The upload rule carries the
spec-modelled fact that a freshly deserialized instance is not compiled
(the specification makes `compiled` true only after a successful
compilation call). -/
inductive Reachable : ModelState → Prop where
  | init : Reachable initialState
  | create (st : ModelState) (nm : String) :
      Reachable st → Reachable (create_model st nm).state
  | upload (st : ModelState) (loaded : TFInstance) :
      Reachable st → loaded.tfCompiled = false →
      Reachable (upload_model st loaded).state
  | addLayer (st : ModelState) (mk : Connection → Handle) (name : String)
      (ct : ConnectTo) :
      Reachable st → Reachable (add_layer st mk name ct).state
  | setOutputs (st : ModelState) (ns : StrOrList) :
      Reachable st → Reachable (set_model_outputs st ns).state
  | selectOptimizer (st : ModelState) (opt : Nat) :
      Reachable st → Reachable (select_optimizer st opt).state
  | addLoss (st : ModelState) (layer : String) (loss : Nat) :
      Reachable st → Reachable (add_loss st layer loss).state
  | addMetric (st : ModelState) (layer : String) (metric : Nat) :
      Reachable st → Reachable (add_metric st layer metric).state
  | addCallback (st : ModelState) (cb : Nat) :
      Reachable st → Reachable (add_callback st cb).state
  | compile (st : ModelState) :
      Reachable st → Reachable (compile_model st).state
  | fit (st : ModelState) (hist : DictL (List Int)) :
      Reachable st → Reachable (fit_model st hist).state

theorem lookupList_eq_map (d : DictL Handle) (sel : List String)
    (h : ∀ n ∈ sel, dfind? d n ≠ none) :
    lookupList d sel
      = Except.ok (sel.map (fun n => (dfind? d n).getD default)) := by
  induction sel with
  | nil => rfl
  | cons n rest ih =>
      have hn := h n (List.mem_cons_self n rest)
      obtain ⟨hh, hhe⟩ := Option.ne_none_iff_exists'.mp hn
      have hrest := ih (fun m hm => h m (List.mem_cons_of_mem _ hm))
      simp [lookupList, hhe, hrest]

theorem lookupList_error_of_missing (d : DictL Handle) (cs : List String)
    (h : ∃ c ∈ cs, dfind? d c = none) :
    ∃ c, dfind? d c = none
      ∧ lookupList d cs = Except.error (Err.unknownLayer c) := by
  induction cs with
  | nil =>
      obtain ⟨c, hc, _⟩ := h
      cases hc
  | cons n rest ih =>
      cases hn : dfind? d n with
      | none => exact ⟨n, hn, by simp [lookupList, hn]⟩
      | some hh =>
          have hr : ∃ c ∈ rest, dfind? d c = none := by
            obtain ⟨c, hc, hcn⟩ := h
            rcases List.mem_cons.mp hc with rfl | hmem
            · rw [hn] at hcn
              cases hcn
            · exact ⟨c, hmem, hcn⟩
          obtain ⟨c, hcn, heq⟩ := ih hr
          exact ⟨c, hcn, by simp [lookupList, hn, heq]⟩

/-- C4: for every layer present in the shape map selected by the side and
in `columnsPerLayer`, `check_layer_capacity(side, layer, n)` returns
`false` iff `n + columnsPerLayer[layer] > shape[layer]`; at the boundary
`n + columnsPerLayer[layer] = shape[layer]` it returns `true`. -/
theorem check_layer_capacity_boundary (st : ModelState) (cols : DictL Nat)
    (layer_type layer : String) (n s current : Nat)
    (hshape : (if layer_type = "input" then dfind? st.input_shapes layer
               else dfind? st.output_shapes layer) = some (some s))
    (hcols : dfind? cols layer = some current) :
    check_layer_capacity st cols layer_type layer n
        = Except.ok (decide (n + current ≤ s))
    ∧ (n + current = s →
        check_layer_capacity st cols layer_type layer n = Except.ok true) := by
  have hmain : check_layer_capacity st cols layer_type layer n
      = Except.ok (decide (n + current ≤ s)) := by
    unfold check_layer_capacity
    rw [hshape, hcols]
    by_cases hle : n + current ≤ s
    · have hng : ¬ n + current > s := not_lt.mpr hle
      simp [hng, hle]
    · have hg : n + current > s := not_le.mp hle
      simp [hg, hle]
  refine ⟨hmain, fun hb => ?_⟩
  rw [hmain, hb]
  simp

/-- Closed instance of `check_layer_capacity_boundary`: the scenario of
the spec, `checkLayerCapacity("input", "in", 4)` with
`columnsPerLayer["in"] = 0` and `inputShapes["in"] = 4`. -/
theorem check_layer_capacity_boundary_witness :
    check_layer_capacity
        { initialState with input_shapes := [("in", some 4)] }
        [("in", 0)] "input" "in" 4 = Except.ok true :=
  (check_layer_capacity_boundary
      { initialState with input_shapes := [("in", some 4)] }
      [("in", 0)] "input" "in" 4 4 0 (by decide) (by decide)).2 (by decide)

/-- C2 counterexample: in a state whose `layers` (and `inputLayers`)
already contain the name "a", adding an entry layer named "a" raises no
error at all — there is no duplicate-name check in `add_layer` — so the
claimed `DuplicateNameError` failure does not happen. -/
theorem entry_layer_duplicate_no_error_counterexample :
    (add_layer
        { initialState with
            layers := [("a", ⟨"a", [none, some 3], 7⟩)],
            input_layers := [("a", ⟨"a", [none, some 3], 7⟩)] }
        (fun _ => ⟨"a", [none, some 2], 8⟩) "a" ConnectTo.none).err = none
    ∧ dfind?
        (add_layer
            { initialState with
                layers := [("a", ⟨"a", [none, some 3], 7⟩)],
                input_layers := [("a", ⟨"a", [none, some 3], 7⟩)] }
            (fun _ => ⟨"a", [none, some 2], 8⟩) "a" ConnectTo.none).state.layers
          "a" = some ⟨"a", [none, some 2], 8⟩ := by
  constructor <;> rfl

/-- C2 amended: adding an entry layer never fails — even when the name
already exists in `layers` no `DuplicateNameError` is raised; the call
succeeds and the name maps to the new handle in both `layers` and
`inputLayers` afterwards (overwriting any previous binding). -/
theorem entry_layer_insert_overwrites (st : ModelState)
    (mk : Connection → Handle) (name : String) :
    (add_layer st mk name ConnectTo.none).err = none
    ∧ dfind? (add_layer st mk name ConnectTo.none).state.layers name
        = some (mk Connection.noConn)
    ∧ dfind? (add_layer st mk name ConnectTo.none).state.input_layers name
        = some (mk Connection.noConn) := by
  refine ⟨rfl, ?_, ?_⟩ <;> simp [add_layer, dfind?_dinsert]

/-- C6 counterexample: with "out" the only current output layer,
`add_loss("missing_layer", ...)` raises no error and mutates `losses` —
the dict assignment inserts the unknown key — contradicting the claimed
`UnknownLayerError` with `losses` unchanged. -/
theorem add_loss_unknown_layer_counterexample :
    dfind?
        ({ initialState with
            output_layers := [("out", ⟨"out", [none, some 1], 1⟩)],
            losses := [("out", LossVal.unset)] } : ModelState).output_layers
        "missing_layer" = none
    ∧ (add_loss
          { initialState with
              output_layers := [("out", ⟨"out", [none, some 1], 1⟩)],
              losses := [("out", LossVal.unset)] }
          "missing_layer" 5).err = none
    ∧ (add_loss
          { initialState with
              output_layers := [("out", ⟨"out", [none, some 1], 1⟩)],
              losses := [("out", LossVal.unset)] }
          "missing_layer" 5).state.losses
        ≠ [("out", LossVal.unset)] := by
  refine ⟨rfl, rfl, ?_⟩
  decide

/-- C6 amended: `add_loss(layerName, loss)` succeeds for every state and
every name — including names that are not current outputs — and binds the
loss under `layerName` in `losses`, inserting the key when absent. -/
theorem add_loss_always_inserts (st : ModelState) (layer : String)
    (loss : Nat) :
    (add_loss st layer loss).err = none
    ∧ dfind? (add_loss st layer loss).state.losses layer
        = some (LossVal.bound loss) := by
  refine ⟨rfl, ?_⟩
  simp [add_loss, dfind?_dinsert]

/-- C9: the code slip behind the claim.  `validate_shapes` applied to a
collection containing one empty shape returns normally: the guard in the
loop body reads `if not shapes` — testing the whole (non-empty) collection
instead of the current shape — so the empty-shape error of its own message
is unreachable. -/
theorem validate_shapes_empty_shape_bug :
    validate_shapes (ShapesPy.listS [[]]) = Except.ok () := rfl

/-- C7: `Concatenate.get_connection` fails with the
insufficient-connections error when fewer than two layer names are
selected, and with two or more selected names that all resolve it returns
the ordered list of their handles. -/
theorem concatenate_connection_spec (layers : DictL Handle)
    (sel : List String) :
    (sel.length < 2 →
      concatenate_get_connection layers sel
        = Except.error Err.insufficientConnections)
    ∧ (2 ≤ sel.length →
        (∀ n ∈ sel, dfind? layers n ≠ none) →
        concatenate_get_connection layers sel
          = Except.ok (sel.map (fun n => (dfind? layers n).getD default))) := by
  constructor
  · intro hlt
    simp [concatenate_get_connection, hlt]
  · intro hge hall
    have hnlt : ¬ sel.length < 2 := not_lt.mpr hge
    simp [concatenate_get_connection, hnlt, lookupList_eq_map layers sel hall]

/-- Closed instance of `concatenate_connection_spec`: one selected layer
fails, two resolvable selected layers yield their handles in order. -/
theorem concatenate_connection_spec_witness :
    concatenate_get_connection
        [("a", ⟨"a", [none, some 1], 0⟩), ("b", ⟨"b", [none, some 2], 1⟩)]
        ["a"] = Except.error Err.insufficientConnections
    ∧ concatenate_get_connection
        [("a", ⟨"a", [none, some 1], 0⟩), ("b", ⟨"b", [none, some 2], 1⟩)]
        ["b", "a"]
      = Except.ok [⟨"b", [none, some 2], 1⟩, ⟨"a", [none, some 1], 0⟩] := by
  constructor
  · exact (concatenate_connection_spec
        [("a", ⟨"a", [none, some 1], 0⟩), ("b", ⟨"b", [none, some 2], 1⟩)]
        ["a"]).1 (by decide)
  · have h := (concatenate_connection_spec
        [("a", ⟨"a", [none, some 1], 0⟩), ("b", ⟨"b", [none, some 2], 1⟩)]
        ["b", "a"]).2 (by decide) (by decide)
    rw [h]
    rfl

/-- C1: whenever the `connect_to` argument of `add_layer` contains a name
absent from `layers` (a single unknown name, or a list with an unknown
member), the call fails with the unknown-layer error and returns with the
container exactly as before — same `layers` contents, no partial
insertion, no notification. -/
theorem addLayer_missing_connection_fails (st : ModelState)
    (mk : Connection → Handle) (name : String) (ct : ConnectTo)
    (hmiss : match ct with
      | ConnectTo.none => False
      | ConnectTo.single c => dfind? st.layers c = none
      | ConnectTo.multi cs => ∃ c ∈ cs, dfind? st.layers c = none) :
    ∃ c, dfind? st.layers c = none
      ∧ add_layer st mk name ct
          = { err := some (Err.unknownLayer c), state := st, events := [] } := by
  cases ct with
  | none => cases hmiss
  | single c =>
      refine ⟨c, hmiss, ?_⟩
      simp only [add_layer]
      rw [hmiss]
  | multi cs =>
      obtain ⟨c, hcn, heq⟩ := lookupList_error_of_missing st.layers cs hmiss
      refine ⟨c, hcn, ?_⟩
      simp only [add_layer]
      rw [heq]

/-- Closed instance of `addLayer_missing_connection_fails`: connecting a
new layer to the unknown name "x" on an empty graph fails with the
unknown-layer error and leaves the state untouched, for both the scalar
and the list form of `connect_to`. -/
theorem addLayer_missing_connection_fails_witness :
    (∃ c, dfind? initialState.layers c = none
      ∧ add_layer initialState (fun _ => ⟨"l", [], 0⟩) "l"
            (ConnectTo.single "x")
          = { err := some (Err.unknownLayer c), state := initialState,
              events := [] })
    ∧ (∃ c, dfind? initialState.layers c = none
        ∧ add_layer initialState (fun _ => ⟨"l", [], 0⟩) "l"
              (ConnectTo.multi ["x", "y"])
            = { err := some (Err.unknownLayer c), state := initialState,
                events := [] }) :=
  ⟨addLayer_missing_connection_fails initialState (fun _ => ⟨"l", [], 0⟩) "l"
      (ConnectTo.single "x") (by decide),
   addLayer_missing_connection_fails initialState (fun _ => ⟨"l", [], 0⟩) "l"
      (ConnectTo.multi ["x", "y"]) ⟨"x", by decide, by decide⟩⟩

/-- C8 counterexample: `add_metric` contains no `notify_observers` call.
With a registered observer exposing a callable for every callback type,
a successful metric selection still invokes nothing, contradicting the
claim that every mutating operation (including metric selection) notifies
each registered observer. -/
theorem notify_metric_counterexample :
    (add_metric
        { initialState with metrics := [("out", ([] : List Nat))] }
        "out" 3).err = none
    ∧ invokedCallbacks
        (add_metric
            { initialState with metrics := [("out", ([] : List Nat))] }
            "out" 3).events
        [fun _ => some 0] = [] := by
  constructor <;> rfl

/-- C8 amended: every mutating operation except metric selection — model
created, model uploaded, layer added, outputs set, optimizer selected,
loss selected, model compiled, model trained — notifies, on success, with
its correspondingly named callback type; `notify_observers` visits the
observers in registration order and silently skips those without a
callable of the given name; `add_metric` notifies nothing at all. -/
theorem observer_notification_spec (st : ModelState) (nm : String)
    (loaded : TFInstance) (mk : Connection → Handle) (name : String)
    (ct : ConnectTo) (ns : StrOrList) (opt loss metric : Nat)
    (layer : String) (hist : DictL (List Int)) (observers : List Observer)
    (ctype : Observe) :
    (create_model st nm).events = [Observe.modelChanged]
    ∧ ((upload_model st loaded).err = none →
        (upload_model st loaded).events = [Observe.modelChanged])
    ∧ ((add_layer st mk name ct).err = none →
        (add_layer st mk name ct).events = [Observe.layerAdded])
    ∧ ((set_model_outputs st ns).err = none →
        (set_model_outputs st ns).events = [Observe.outputsSet])
    ∧ (select_optimizer st opt).events = [Observe.optimizerSelected]
    ∧ (add_loss st layer loss).events = [Observe.lossesSelected]
    ∧ ((compile_model st).err = none →
        (compile_model st).events = [Observe.modelCompiled])
    ∧ ((fit_model st hist).err = none →
        (fit_model st hist).events = [Observe.modelTrained])
    ∧ (add_metric st layer metric).events = []
    ∧ notify_observers observers ctype
        = observers.filterMap (fun o => o ctype) := by
  refine ⟨?_, ?_, ?_, ?_, rfl, rfl, ?_, ?_, ?_, ?_⟩
  · simp only [create_model]
    rfl
  · simp only [upload_model]
    split
    · intro hc
      cases hc
    · intro _
      rfl
  · cases ct with
    | none => intro _; rfl
    | single c =>
        simp only [add_layer]
        cases h : dfind? st.layers c with
        | none => intro hc; cases hc
        | some h0 => intro _; rfl
    | multi cs =>
        simp only [add_layer]
        cases h : lookupList st.layers cs with
        | error e => intro hc; cases hc
        | ok hs => intro _; rfl
  · simp only [set_model_outputs]
    split
    · intro hc
      cases hc
    · split
      · intro hc
        cases hc
      · intro _
        rfl
  · simp only [compile_model]
    cases st.instanceM with
    | none => intro hc; cases hc
    | some i => intro _; rfl
  · simp only [fit_model, tf_fit]
    cases st.instanceM with
    | none => intro hc; cases hc
    | some i =>
        by_cases h : i.tfCompiled
        · simp [h]
        · simp [h]
  · simp only [add_metric]
    cases h : dfind? st.metrics layer with
    | none => rfl
    | some ms => rfl
  · induction observers with
    | nil => rfl
    | cons o rest ih =>
        cases h : o ctype with
        | none => simp [notify_observers, h, ih]
        | some cb => simp [notify_observers, h, ih]

/-- The model instance, when present, has not had the external compile
called on it. -/
def uncompiledInstance (st : ModelState) : Prop :=
  ∀ i, st.instanceM = some i → i.tfCompiled = false

theorem refresh_preserves (st : ModelState) (inst : TFInstance) :
    (refresh_model st inst).2.instanceM = st.instanceM
    ∧ (refresh_model st inst).2.compiled = st.compiled := by
  unfold refresh_model
  split <;> exact ⟨rfl, rfl⟩

theorem create_model_fields (st : ModelState) (nm : String) :
    (create_model st nm).state.instanceM = some (kerasModel [] [] nm)
    ∧ (create_model st nm).state.compiled = st.compiled := by
  have hp := refresh_preserves
    { st with instanceM := some (kerasModel [] [] nm) } (kerasModel [] [] nm)
  simp only [create_model]
  split
  next e st2 heq =>
      rw [heq] at hp
      exact ⟨hp.1, hp.2⟩
  next st2 heq =>
      rw [heq] at hp
      exact ⟨hp.1, hp.2⟩

theorem upload_model_fields (st : ModelState) (loaded : TFInstance) :
    (upload_model st loaded).state.instanceM = some loaded
    ∧ (upload_model st loaded).state.compiled = st.compiled := by
  have hp := refresh_preserves { st with instanceM := some loaded } loaded
  simp only [upload_model]
  split
  next e st2 heq =>
      rw [heq] at hp
      exact ⟨hp.1, hp.2⟩
  next st2 heq =>
      rw [heq] at hp
      exact ⟨hp.1, hp.2⟩

theorem add_layer_fields (st : ModelState) (mk : Connection → Handle)
    (name : String) (ct : ConnectTo) :
    (add_layer st mk name ct).state.instanceM = st.instanceM
    ∧ (add_layer st mk name ct).state.compiled = st.compiled := by
  cases ct with
  | none => exact ⟨rfl, rfl⟩
  | single c =>
      simp only [add_layer]
      split <;> exact ⟨rfl, rfl⟩
  | multi cs =>
      simp only [add_layer]
      split <;> exact ⟨rfl, rfl⟩

theorem set_model_outputs_fields (st : ModelState) (ns : StrOrList) :
    (set_model_outputs st ns).state.instanceM = st.instanceM
    ∨ ∃ oL, (set_model_outputs st ns).state.instanceM
        = some (kerasModel st.input_layers oL st.mname) := by
  simp only [set_model_outputs]
  split
  · exact Or.inl rfl
  next pairs heq =>
      have hp := refresh_preserves
        { st with
            output_layers := dofList pairs,
            instanceM := some (kerasModel st.input_layers (dofList pairs)
              st.mname) }
        (kerasModel st.input_layers (dofList pairs) st.mname)
      refine Or.inr ⟨dofList pairs, ?_⟩
      split
      next e st3 heq2 =>
          rw [heq2] at hp
          exact hp.1
      next st3 heq2 =>
          rw [heq2] at hp
          exact hp.1

theorem set_model_outputs_compiled (st : ModelState) (ns : StrOrList) :
    (set_model_outputs st ns).state.compiled = st.compiled := by
  simp only [set_model_outputs]
  split
  · rfl
  next pairs heq =>
      have hp := refresh_preserves
        { st with
            output_layers := dofList pairs,
            instanceM := some (kerasModel st.input_layers (dofList pairs)
              st.mname) }
        (kerasModel st.input_layers (dofList pairs) st.mname)
      split
      next e st3 heq2 =>
          rw [heq2] at hp
          exact hp.2
      next st3 heq2 =>
          rw [heq2] at hp
          exact hp.2

theorem compile_model_compiled (st : ModelState) :
    (compile_model st).err = none → (compile_model st).state.compiled = true := by
  simp only [compile_model]
  split
  · intro hc
    cases hc
  · intro _
    rfl

theorem compile_model_err_state (st : ModelState) :
    (compile_model st).err = none ∨ (compile_model st).state = st := by
  simp only [compile_model]
  split
  · exact Or.inr rfl
  · exact Or.inl rfl

theorem fit_model_fields (st : ModelState) (hist : DictL (List Int)) :
    (fit_model st hist).state.instanceM = st.instanceM
    ∧ (fit_model st hist).state.compiled = st.compiled := by
  simp only [fit_model]
  split <;> exact ⟨rfl, rfl⟩

/-- Invariant: in every reachable container state, a false `compiled`
flag means the external compile has never been applied to the current
instance (compilation is the only operation marking either; creation,
upload and output re-designation always install uncompiled instances). -/
theorem reachable_uncompiled (st : ModelState) (h : Reachable st) :
    st.compiled = false → uncompiledInstance st := by
  induction h with
  | init =>
      intro _ i hi
      cases hi
  | create st0 nm _ _ =>
      intro _ i hi
      have hf := (create_model_fields st0 nm).1
      rw [hf] at hi
      cases hi
      rfl
  | upload st0 loaded _ hun _ =>
      intro _ i hi
      have hf := (upload_model_fields st0 loaded).1
      rw [hf] at hi
      cases hi
      exact hun
  | addLayer st0 mk name ct _ ih =>
      intro hc i hi
      have hf := add_layer_fields st0 mk name ct
      rw [hf.1] at hi
      exact ih (hf.2 ▸ hc) i hi
  | setOutputs st0 ns _ ih =>
      intro hc i hi
      have hcomp := set_model_outputs_compiled st0 ns
      rcases set_model_outputs_fields st0 ns with hsame | ⟨oL, hnew⟩
      · rw [hsame] at hi
        exact ih (hcomp ▸ hc) i hi
      · rw [hnew] at hi
        cases hi
        rfl
  | selectOptimizer st0 opt _ ih =>
      intro hc i hi
      exact ih hc i hi
  | addLoss st0 layer loss _ ih =>
      intro hc i hi
      exact ih hc i hi
  | addMetric st0 layer metric _ ih =>
      intro hc i hi
      have : (add_metric st0 layer metric).state.instanceM = st0.instanceM
          ∧ (add_metric st0 layer metric).state.compiled = st0.compiled := by
        simp only [add_metric]
        split <;> exact ⟨rfl, rfl⟩
      rw [this.1] at hi
      exact ih (this.2 ▸ hc) i hi
  | addCallback st0 cb _ ih =>
      intro hc i hi
      exact ih hc i hi
  | compile st0 _ ih =>
      intro hc i hi
      rcases compile_model_err_state st0 with hok | hsame
      · have := compile_model_compiled st0 hok
        rw [this] at hc
        cases hc
      · rw [hsame] at hi hc
        exact ih hc i hi
  | fit st0 hist _ ih =>
      intro hc i hi
      have hf := fit_model_fields st0 hist
      rw [hf.1] at hi
      exact ih (hf.2 ▸ hc) i hi

/-- C3: in every reachable state whose `compiled` flag is still false (no
compile call has succeeded), `fit_model` fails with the not-compiled error
and leaves the container — in particular `training_history` — exactly as
it was, with no notification. -/
theorem fit_before_compile_not_compiled (st : ModelState)
    (hist : DictL (List Int)) (hreach : Reachable st)
    (hc : st.compiled = false) :
    fit_model st hist
        = { err := some Err.notCompiled, state := st, events := [] }
    ∧ (fit_model st hist).state.training_history = st.training_history := by
  have hinst := reachable_uncompiled st hreach hc
  have hmain : fit_model st hist
      = { err := some Err.notCompiled, state := st, events := [] } := by
    unfold fit_model tf_fit
    cases hi : st.instanceM with
    | none => rfl
    | some i =>
        have hu := hinst i hi
        simp [hu]
  exact ⟨hmain, by rw [hmain]⟩

/-- Closed instance of `fit_before_compile_not_compiled`: fitting on the
fresh container fails with the not-compiled error and the state is kept. -/
theorem fit_before_compile_not_compiled_witness :
    fit_model initialState [("loss", [1, 2])]
      = { err := some Err.notCompiled, state := initialState, events := [] } :=
  (fit_before_compile_not_compiled initialState [("loss", [1, 2])]
      Reachable.init rfl).1

/-- Container state used by the notification witness: an uncompiled flag
with a compiled instance is irrelevant here; only presence and
compiledness of the instance matter for the success hypotheses. -/
def stObsW : ModelState :=
  { initialState with instanceM := some ⟨"m", [], [], [], [], true⟩ }

/-- A deserialized model instance for the notification witness. -/
def loadedObsW : TFInstance := ⟨"u", [], [], [], [], false⟩

/-- A layer factory for the notification witness. -/
def mkObsW : Connection → Handle := fun _ => ⟨"l", [], 0⟩

/-- Closed instance of `observer_notification_spec`: each operation run on
a concrete container, with every success hypothesis discharged by
evaluation. -/
theorem observer_notification_spec_witness :
    (create_model stObsW "net").events = [Observe.modelChanged]
    ∧ (upload_model stObsW loadedObsW).events = [Observe.modelChanged]
    ∧ (add_layer stObsW mkObsW "l" ConnectTo.none).events
        = [Observe.layerAdded]
    ∧ (set_model_outputs stObsW (StrOrList.list [])).events
        = [Observe.outputsSet]
    ∧ (select_optimizer stObsW 0).events = [Observe.optimizerSelected]
    ∧ (add_loss stObsW "x" 0).events = [Observe.lossesSelected]
    ∧ (compile_model stObsW).events = [Observe.modelCompiled]
    ∧ (fit_model stObsW []).events = [Observe.modelTrained]
    ∧ (add_metric stObsW "x" 0).events = []
    ∧ notify_observers [] Observe.modelChanged
        = List.filterMap (fun o => o Observe.modelChanged)
            ([] : List Observer) := by
  have h := observer_notification_spec stObsW "net" loadedObsW mkObsW "l"
    ConnectTo.none (StrOrList.list []) 0 0 0 "x" [] [] Observe.modelChanged
  exact ⟨h.1, h.2.1 rfl, h.2.2.1 rfl, h.2.2.2.1 rfl, h.2.2.2.2.1,
    h.2.2.2.2.2.1, h.2.2.2.2.2.2.1 rfl, h.2.2.2.2.2.2.2.1 rfl,
    h.2.2.2.2.2.2.2.2.1, h.2.2.2.2.2.2.2.2.2⟩

theorem lookupPairs_ok_keys (d : DictL Handle) (ns : List String)
    (ps : List (String × Handle)) (h : lookupPairs d ns = Except.ok ps) :
    ps.map Prod.fst = ns := by
  induction ns generalizing ps with
  | nil =>
      simp only [lookupPairs] at h
      cases h
      rfl
  | cons n rest ih =>
      simp only [lookupPairs] at h
      cases hn : dfind? d n with
      | none =>
          rw [hn] at h
          cases h
      | some hh =>
          rw [hn] at h
          cases hr : lookupPairs d rest with
          | error e =>
              rw [hr] at h
              cases h
          | ok ps0 =>
              rw [hr] at h
              cases h
              simp [ih ps0 hr]

theorem lookupPairs_error_of_missing (d : DictL Handle) (ns : List String)
    (h : ∃ c ∈ ns, dfind? d c = none) :
    ∃ c ∈ ns, dfind? d c = none
      ∧ lookupPairs d ns = Except.error (Err.unknownLayer c) := by
  induction ns with
  | nil =>
      obtain ⟨c, hc, _⟩ := h
      cases hc
  | cons n rest ih =>
      cases hn : dfind? d n with
      | none =>
          exact ⟨n, List.mem_cons_self n rest, hn, by simp [lookupPairs, hn]⟩
      | some hh =>
          have hr : ∃ c ∈ rest, dfind? d c = none := by
            obtain ⟨c, hc, hcn⟩ := h
            rcases List.mem_cons.mp hc with rfl | hmem
            · rw [hn] at hcn
              cases hcn
            · exact ⟨c, hmem, hcn⟩
          obtain ⟨c, hmem, hcn, heq⟩ := ih hr
          exact ⟨c, List.mem_cons_of_mem _ hmem, hcn,
            by simp [lookupPairs, hn, heq]⟩

theorem mem_keys_dinsert {α : Type} (d : DictL α) (k0 key : String) (v : α)
    (h : key ∈ (dinsert d k0 v).map Prod.fst) :
    key = k0 ∨ key ∈ d.map Prod.fst := by
  induction d with
  | nil =>
      simp only [dinsert, List.map_cons, List.map_nil, List.mem_singleton] at h
      exact Or.inl h
  | cons hd tl ih =>
      obtain ⟨ka, va⟩ := hd
      by_cases hka : ka = k0
      · rw [dinsert, if_pos hka] at h
        simp only [List.map_cons, List.mem_cons] at h
        rcases h with rfl | h
        · exact Or.inl rfl
        · exact Or.inr (List.mem_cons_of_mem _ h)
      · rw [dinsert, if_neg hka] at h
        simp only [List.map_cons, List.mem_cons] at h
        rcases h with rfl | h
        · exact Or.inr (List.mem_cons_self _ _)
        · rcases ih h with h1 | h1
          · exact Or.inl h1
          · exact Or.inr (List.mem_cons_of_mem _ h1)

theorem mem_keys_foldl_dinsert {α : Type} (l : List (String × α))
    (d0 : DictL α) (key : String)
    (h : key ∈ ((l.foldl (fun d kv => dinsert d kv.1 kv.2) d0)).map Prod.fst) :
    key ∈ d0.map Prod.fst ∨ key ∈ l.map Prod.fst := by
  induction l generalizing d0 with
  | nil => exact Or.inl h
  | cons hd tl ih =>
      rw [List.foldl_cons] at h
      rcases ih (dinsert d0 hd.1 hd.2) h with h1 | h1
      · rcases mem_keys_dinsert d0 hd.1 key hd.2 h1 with rfl | h2
        · exact Or.inr (by simp)
        · exact Or.inl h2
      · exact Or.inr (List.mem_cons_of_mem _ h1)

theorem mem_keys_dofList {α : Type} (l : List (String × α)) (key : String)
    (h : key ∈ (dofList l).map Prod.fst) : key ∈ l.map Prod.fst := by
  rcases mem_keys_foldl_dinsert l [] key h with h1 | h1
  · cases h1
  · exact h1

theorem refresh_output_layers (st : ModelState) (inst : TFInstance) :
    (refresh_model st inst).2.output_layers
      = dofList (List.zip inst.output_names inst.outputs) := by
  unfold refresh_model
  split <;> rfl

theorem set_model_outputs_output_layers_ok (st : ModelState) (ns : StrOrList)
    (pairs : List (String × Handle))
    (h : lookupPairs st.layers (namesOf ns) = Except.ok pairs) :
    (set_model_outputs st ns).state.output_layers
      = dofList (List.zip ((dofList pairs).map Prod.fst)
          ((dofList pairs).map Prod.snd)) := by
  simp only [set_model_outputs, h]
  split
  next e st3 heq2 =>
      have h2 := congrArg Prod.snd heq2
      have h3 := refresh_output_layers
        { st with
            output_layers := dofList pairs,
            instanceM := some (kerasModel st.input_layers (dofList pairs)
              st.mname) }
        (kerasModel st.input_layers (dofList pairs) st.mname)
      rw [h2] at h3
      exact h3
  next st3 heq2 =>
      have h2 := congrArg Prod.snd heq2
      have h3 := refresh_output_layers
        { st with
            output_layers := dofList pairs,
            instanceM := some (kerasModel st.input_layers (dofList pairs)
              st.mname) }
        (kerasModel st.input_layers (dofList pairs) st.mname)
      rw [h2] at h3
      exact h3

/-- C10: passing a bare string to `set_model_outputs` iterates it
character by character.  For a string of two or more characters: if some
character is not a layer name the call raises the lookup failure on that
one-character name and leaves the container untouched, and in every case
the string itself is never made an output-layer key — either the state is
unchanged, or the new `output_layers` contains only one-character keys. -/
theorem scalar_string_outputs_spec (st : ModelState) (s : String)
    (hlen : 2 ≤ s.data.length) :
    ((∃ c ∈ s.data, dfind? st.layers (String.mk [c]) = none) →
      ∃ c ∈ s.data,
        set_model_outputs st (StrOrList.str s)
          = { err := some (Err.unknownLayer (String.mk [c])), state := st,
              events := [] })
    ∧ ((set_model_outputs st (StrOrList.str s)).state = st
        ∨ dfind?
            (set_model_outputs st (StrOrList.str s)).state.output_layers s
          = none) := by
  constructor
  · intro hmiss
    have hex : ∃ c ∈ namesOf (StrOrList.str s), dfind? st.layers c = none := by
      obtain ⟨c, hc, hcn⟩ := hmiss
      exact ⟨String.mk [c], List.mem_map.mpr ⟨c, hc, rfl⟩, hcn⟩
    obtain ⟨nm, hmem, _, heq⟩ :=
      lookupPairs_error_of_missing st.layers (namesOf (StrOrList.str s)) hex
    obtain ⟨c, hc, rfl⟩ := List.mem_map.mp hmem
    refine ⟨c, hc, ?_⟩
    simp only [set_model_outputs, heq]
  · cases hl : lookupPairs st.layers (namesOf (StrOrList.str s)) with
    | error e =>
        left
        simp only [set_model_outputs, hl]
    | ok pairs =>
        right
        rw [set_model_outputs_output_layers_ok st (StrOrList.str s) pairs hl]
        apply dfind?_dofList_of_not_mem
        intro hsmem
        obtain ⟨p, hp, hps⟩ := List.mem_map.mp hsmem
        have hsA : s ∈ (dofList pairs).map Prod.fst := by
          rw [← hps]
          exact (List.of_mem_zip hp).1
        have hsPairs := mem_keys_dofList pairs s hsA
        rw [lookupPairs_ok_keys st.layers (namesOf (StrOrList.str s))
          pairs hl] at hsPairs
        obtain ⟨c, _, hsc⟩ := List.mem_map.mp hsPairs
        have hdata : s.data = [c] := congrArg String.data hsc.symm
        rw [hdata] at hlen
        simp at hlen

/-- Closed instance of `scalar_string_outputs_spec`: passing "ab" on an
empty graph fails with the lookup error on the one-character name "a";
passing "ab" on a graph whose layer names are exactly "a" and "b"
succeeds without ever making "ab" an output-layer key. -/
theorem scalar_string_outputs_spec_witness :
    (∃ c ∈ "ab".data,
      set_model_outputs initialState (StrOrList.str "ab")
        = { err := some (Err.unknownLayer (String.mk [c])),
            state := initialState, events := [] })
    ∧ (({ initialState with
            layers := [("a", ⟨"a", [none, some 1], 0⟩),
                       ("b", ⟨"b", [none, some 2], 1⟩)] } : ModelState)
          = (set_model_outputs
              { initialState with
                  layers := [("a", ⟨"a", [none, some 1], 0⟩),
                             ("b", ⟨"b", [none, some 2], 1⟩)] }
              (StrOrList.str "ab")).state
        ∨ dfind?
            (set_model_outputs
                { initialState with
                    layers := [("a", ⟨"a", [none, some 1], 0⟩),
                               ("b", ⟨"b", [none, some 2], 1⟩)] }
                (StrOrList.str "ab")).state.output_layers "ab" = none) := by
  constructor
  · exact (scalar_string_outputs_spec initialState "ab" (by decide)).1
      ⟨'a', by decide, by decide⟩
  · rcases (scalar_string_outputs_spec
        { initialState with
            layers := [("a", ⟨"a", [none, some 1], 0⟩),
                       ("b", ⟨"b", [none, some 2], 1⟩)] }
        "ab" (by decide)).2 with h | h
    · exact Or.inl h.symm
    · exact Or.inr h

theorem shapeAt1_ok (h : Handle) (d : Option Nat)
    (he : shapeAt1 h = Except.ok d) : h.shape.get? 1 = some d := by
  unfold shapeAt1 at he
  cases hg : h.shape.get? 1 with
  | none =>
      rw [hg] at he
      cases he
  | some d0 =>
      rw [hg] at he
      cases he
      rfl

theorem inputShapePairs_ok_keys (hs : List Handle)
    (ps : List (String × Option Nat)) (h : inputShapePairs hs = Except.ok ps) :
    ps.map Prod.fst = hs.map Handle.hname := by
  induction hs generalizing ps with
  | nil =>
      simp only [inputShapePairs] at h
      cases h
      rfl
  | cons hh rest ih =>
      simp only [inputShapePairs] at h
      cases hsh : shapeAt1 hh with
      | error e =>
          rw [hsh] at h
          cases h
      | ok d =>
          rw [hsh] at h
          cases hr : inputShapePairs rest with
          | error e =>
              rw [hr] at h
              cases h
          | ok ps0 =>
              rw [hr] at h
              cases h
              simp [ih ps0 hr]

theorem inputShapePairs_ok_mem (hs : List Handle)
    (ps : List (String × Option Nat)) (h : inputShapePairs hs = Except.ok ps) :
    ∀ hh ∈ hs, ∃ d, hh.shape.get? 1 = some d ∧ (hh.hname, d) ∈ ps := by
  induction hs generalizing ps with
  | nil =>
      intro hh hmem
      cases hmem
  | cons h0 rest ih =>
      intro hh hmem
      simp only [inputShapePairs] at h
      cases hsh : shapeAt1 h0 with
      | error e =>
          rw [hsh] at h
          cases h
      | ok d =>
          rw [hsh] at h
          cases hr : inputShapePairs rest with
          | error e =>
              rw [hr] at h
              cases h
          | ok ps0 =>
              rw [hr] at h
              cases h
              rcases List.mem_cons.mp hmem with rfl | hmem0
              · exact ⟨d, shapeAt1_ok hh d hsh, List.mem_cons_self _ _⟩
              · obtain ⟨d0, hd0, hmem1⟩ := ih ps0 hr hh hmem0
                exact ⟨d0, hd0, List.mem_cons_of_mem _ hmem1⟩

theorem refresh_ok_shapes (st : ModelState) (inst : TFInstance)
    (st' : ModelState) (h : refresh_model st inst = (none, st')) :
    ∃ iS, inputShapePairs inst.inputs = Except.ok iS
      ∧ st'.input_shapes = dofList iS
      ∧ st'.output_shapes
          = dofList (inst.output_names.map (fun n => (n, some 1))) := by
  unfold refresh_model at h
  cases hip : inputShapePairs inst.inputs with
  | error e =>
      rw [hip] at h
      exact absurd (congrArg Prod.fst h) (by simp)
  | ok iS =>
      rw [hip] at h
      have h2 := congrArg Prod.snd h
      exact ⟨iS, rfl, congrArg ModelState.input_shapes h2.symm,
        congrArg ModelState.output_shapes h2.symm⟩

/-- C5: after every successful `refresh_model` (hence after every
successful `set_model_outputs`, which ends in one), `output_shapes` maps
every current output-layer name to exactly 1, and `input_shapes` maps
every current input-layer name to the second component of that input
tensor's declared shape.  `hnames` records that the instance reports its
input names as the names of its input tensors; the name sets are assumed
duplicate-free. -/
theorem refresh_shapes_spec (st : ModelState) (inst : TFInstance)
    (st' : ModelState) (hok : refresh_model st inst = (none, st'))
    (hnames : inst.input_names = inst.inputs.map Handle.hname)
    (hndI : (inst.inputs.map Handle.hname).Nodup)
    (hndO : inst.output_names.Nodup) :
    (∀ n ∈ inst.output_names, dfind? st'.output_shapes n = some (some 1))
    ∧ (∀ n ∈ inst.input_names, ∃ hh, hh ∈ inst.inputs ∧ hh.hname = n
        ∧ ∃ d, hh.shape.get? 1 = some d
        ∧ dfind? st'.input_shapes n = some d) := by
  obtain ⟨iS, hiS, hin, hout⟩ := refresh_ok_shapes st inst st' hok
  constructor
  · intro n hn
    rw [hout]
    apply dfind?_dofList_of_nodup
    · simp only [List.map_map]
      have : (Prod.fst ∘ fun n => (n, some 1)) = fun n : String => n := rfl
      rw [this]
      simpa using hndO
    · exact List.mem_map.mpr ⟨n, hn, rfl⟩
  · intro n hn
    rw [hnames] at hn
    obtain ⟨hh, hmem, hname⟩ := List.mem_map.mp hn
    obtain ⟨d, hd, hmemiS⟩ := inputShapePairs_ok_mem inst.inputs iS hiS hh hmem
    refine ⟨hh, hmem, hname, d, hd, ?_⟩
    rw [hin, ← hname]
    apply dfind?_dofList_of_nodup
    · rw [inputShapePairs_ok_keys inst.inputs iS hiS]
      exact hndI
    · exact hmemiS

/-- The instance of the specification scenario: entry layer "in" with
shape `(None, 4)`, output "out". -/
def instW : TFInstance :=
  { tfName := "net", input_names := ["in"],
    inputs := [⟨"in", [none, some 4], 0⟩], output_names := ["out"],
    outputs := [⟨"out", [none, some 1], 1⟩], tfCompiled := false }

/-- Closed instance of `refresh_shapes_spec` on the scenario of the spec:
`outputShapes["out"] = 1` and `inputShapes["in"] = 4`. -/
theorem refresh_shapes_spec_witness :
    dfind? (refresh_model initialState instW).2.output_shapes "out"
        = some (some 1)
    ∧ dfind? (refresh_model initialState instW).2.input_shapes "in"
        = some (some 4) := by
  have h := refresh_shapes_spec initialState instW
    (refresh_model initialState instW).2 (by decide) (by decide) (by decide)
    (by decide)
  constructor
  · exact h.1 "out" (by decide)
  · obtain ⟨hh, hmem, hname, d, hd, hfind⟩ := h.2 "in" (by decide)
    have hhh : hh = ⟨"in", [none, some 4], 0⟩ := by
      simpa [instW] using hmem
    rw [hhh] at hd
    simp only [List.get?] at hd
    cases hd
    exact hfind

end MLTest
